import Mathlib

set_option linter.unusedVariables false

/-! Shallow embedding of the expense-approval backend (src/hell.py).
    The mutable module-level dictionaries (COMPANIES, USERS, EXPENSES,
    APPROVAL_RULES) and the global id counters become one explicit state
    record threaded through each request handler; dictionary insertion
    order is modelled by list order, which is what Python dict iteration
    follows.  Python numbers are modelled by rationals, timestamps by an
    abstract clock value supplied with each request, and JSON responses by
    their HTTP status code and message string. -/

namespace Hell

structure Company where
  id : Nat
  name : String
  currency : String
deriving Repr, DecidableEq

structure User where
  id : Nat
  company_id : Nat
  email : String
  role : String
  manager_id : Option Nat
deriving Repr, DecidableEq

/-- The approver identity stored in a history record: a user id for real
    records, or the literal System tag used by the synthetic
    auto-approval record (Python stores the string System there). -/
inductive ApproverTag where
  | user (id : Nat)
  | system
deriving Repr, DecidableEq

structure ApprovalRecord where
  approver_id : ApproverTag
  role : String
  status : String
  comment : String
  timestamp : Nat
deriving Repr, DecidableEq

/-- One entry of the flow_steps list.  The step number key of the Python
    dict is never read by the logic and is omitted. -/
structure Step where
  role : String
  is_manager_approver : Bool
deriving Repr, DecidableEq

/-- The loosely-typed conditional_rule dict: every key is optional, read
    with dict.get semantics. -/
structure CondRule where
  type : Option String
  required_role : Option String
  specific_role : Option String
  threshold : Option ℚ
deriving Repr, DecidableEq

/-- The empty dict default of APPROVAL_RULES.get(cid, ..).get(..., ...). -/
def CondRule.empty : CondRule := ⟨none, none, none, none⟩

structure Flow where
  steps : List Step
  conditional : CondRule
deriving Repr, DecidableEq

structure Expense where
  id : Nat
  user_id : Nat
  amount : ℚ
  currency : String
  category : String
  description : String
  date : String
  status : String
  current_step : Nat
  current_approver_id : Option Nat
  approvals_history : List ApprovalRecord
deriving Repr, DecidableEq

structure SysState where
  companies : List Company
  users : List User
  expenses : List Expense
  approval_rules : List (Nat × Flow)
  next_company_id : Nat
  next_user_id : Nat
  next_expense_id : Nat
deriving Repr, DecidableEq

structure Resp where
  code : Nat
  message : String
deriving Repr, DecidableEq

def ROLES : List String := ["Admin", "Manager", "Employee", "Finance", "Director"]

/-- The role list required of an acting or viewing approver. -/
def approverRoles : List String := ["Admin", "Manager", "Finance", "Director"]

/-- USERS.get(user_id). -/
def get_current_user (users : List User) (user_id : Nat) : Option User :=
  users.find? (fun u => u.id == user_id)

/-- Lines 59-65: first user of the company holding the role, in insertion
    order. -/
def find_user_by_role (users : List User) (company_id : Nat) (role : String) : Option User :=
  users.find? (fun u => u.company_id == company_id && u.role == role)

/-- APPROVAL_RULES.get(company_id). -/
def lookupFlow (approval_rules : List (Nat × Flow)) (company_id : Nat) : Option Flow :=
  (approval_rules.find? (fun p => p.1 == company_id)).map (fun p => p.2)

/-- EXPENSES.get(expense_id). -/
def lookupExpense (expenses : List Expense) (expense_id : Nat) : Option Expense :=
  expenses.find? (fun e => e.id == expense_id)

/-- In-place mutation of the expense object held in the EXPENSES dict,
    modelled as replacement by id. -/
def updateExpense (expenses : List Expense) (e2 : Expense) : List Expense :=
  expenses.map (fun e => if e.id == e2.id then e2 else e)

/-- Python truthiness of an optional numeric id (None and 0 are falsy). -/
def truthyId : Option Nat → Bool
  | none => false
  | some n => !(n == 0)

/-- Python truthiness of an optional string (None and the empty string are
    falsy). -/
def truthyStr : Option String → Bool
  | none => false
  | some s => !(s == "")

/-- Python truthiness of an optional number (None and 0 are falsy). -/
def truthyNum : Option ℚ → Bool
  | none => false
  | some q => !(q == 0)

/-- Python str.capitalize for the ASCII strings this system uses: first
    character uppercased, the rest lowercased. -/
def pyCapitalize (s : String) : String :=
  match s.data with
  | [] => ""
  | c :: cs => String.mk (c.toUpper :: cs.map Char.toLower)

/-- Python str.upper for ASCII strings. -/
def pyUpper (s : String) : String :=
  String.mk (s.data.map Char.toUpper)

/-- Rounding to two decimal places.  Python round() works on binary
    floats and rounds ties to even; over the rational model we round ties
    up.  No claim depends on the numeric value of a conversion. -/
def round2 (x : ℚ) : ℚ := (round (x * 100) : ℤ) / 100

/-- Lines 67-84: fixed-rate mock conversion, used only by the
    pending-expenses view. -/
def mock_currency_conversion (amount : ℚ) (from_currency to_currency : String) : ℚ :=
  if pyUpper from_currency == pyUpper to_currency then amount
  else
    let mock_rate : ℚ :=
      if pyUpper from_currency == "EUR" && pyUpper to_currency == "USD" then 108 / 100
      else if pyUpper from_currency == "GBP" && pyUpper to_currency == "USD" then 125 / 100
      else 105 / 100
    round2 (amount * mock_rate)

/-- Lines 86-128: apply_conditional_rules(company_id, approvals_history),
    reading the APPROVAL_RULES store.  The three sequential if-blocks each
    return on success, so they are rendered as an if-else chain; the
    Hybrid block contains two returning sub-checks in order.  The Python
    guard len(flow_roles) > 0 short-circuits before the division; in the
    rational model division is total, so hoisting the set computations is
    harmless. -/
def apply_conditional_rules (approval_rules : List (Nat × Flow)) (company_id : Nat)
    (approvals_history : List ApprovalRecord) : Bool × Option String :=
  let rules := ((lookupFlow approval_rules company_id).map Flow.conditional).getD CondRule.empty
  let flow_steps := ((lookupFlow approval_rules company_id).map Flow.steps).getD []
  let flow_roles := (flow_steps.map Step.role).dedup
  let approved_roles :=
    ((approvals_history.filter
        (fun a => a.status == "Approved" && flow_roles.contains a.role)).map
      ApprovalRecord.role).dedup
  if rules.type == some "Specific" && truthyStr rules.required_role
      && approvals_history.any
           (fun a => a.role == rules.required_role.getD "" && a.status == "Approved") then
    (true, some ("Conditional Rule Met: Specific approver ("
                  ++ rules.required_role.getD "" ++ ") Approved."))
  else if rules.type == some "Percentage" && truthyNum rules.threshold
      && decide (0 < flow_roles.length)
      && decide ((approved_roles.length : ℚ) / (flow_roles.length : ℚ)
                   ≥ rules.threshold.getD 0 / 100) then
    (true, some ("Conditional Rule Met: " ++ toString (rules.threshold.getD 0)
                  ++ "% of approvers have approved."))
  else if rules.type == some "Hybrid" && truthyStr rules.specific_role
      && truthyNum rules.threshold
      && approvals_history.any
           (fun a => a.role == rules.specific_role.getD "" && a.status == "Approved") then
    (true, some ("Conditional Hybrid Rule Met: Specific approver ("
                  ++ rules.specific_role.getD "" ++ ") Approved."))
  else if rules.type == some "Hybrid" && truthyStr rules.specific_role
      && truthyNum rules.threshold
      && decide (0 < flow_roles.length)
      && decide ((approved_roles.length : ℚ) / (flow_roles.length : ℚ)
                   ≥ rules.threshold.getD 0 / 100) then
    (true, some ("Conditional Hybrid Rule Met: " ++ toString (rules.threshold.getD 0)
                  ++ "% of approvers have approved."))
  else (false, none)

/-- Lines 36-57: create_initial_company_and_admin, inlined into signup. -/
def create_initial_company_and_admin (s : SysState) (user_email : String) : User × SysState :=
  let c : Company := ⟨s.next_company_id, "Default Company " ++ toString s.next_company_id, "USD"⟩
  let u : User := ⟨s.next_user_id, s.next_company_id, user_email, "Admin", none⟩
  (u, { s with companies := s.companies ++ [c], users := s.users ++ [u],
               next_company_id := s.next_company_id + 1,
               next_user_id := s.next_user_id + 1 })

/-- Lines 134-149: the signup endpoint. -/
def signup (s : SysState) (email : String) : Resp × SysState :=
  if s.users.isEmpty then
    let (_, s2) := create_initial_company_and_admin s email
    (⟨201, "Initial Company and Admin User auto-created successfully. Use ID 1 to manage."⟩, s2)
  else
    (⟨400, "Use /admin/manage_user to create other employees."⟩, s)

/-- Lines 155-195: the admin user-management endpoint.  The acting admin
    is hardcoded to user id 1, as in the source. -/
def manage_user (s : SysState) (new_email new_role : String) (manager_id_to_assign : Option Nat) :
    Resp × SysState :=
  match get_current_user s.users 1 with
  | none => (⟨403, "Permission denied. Requires Admin role."⟩, s)
  | some admin_user =>
    if admin_user.role ≠ "Admin" then
      (⟨403, "Permission denied. Requires Admin role."⟩, s)
    else if ¬ new_role ∈ ROLES then
      (⟨400, "Invalid role."⟩, s)
    else
      let mgrOk : Bool :=
        if truthyId manager_id_to_assign then
          match manager_id_to_assign.bind (get_current_user s.users) with
          | none => false
          | some manager_user => manager_user.role == "Manager" || manager_user.role == "Admin"
        else true
      if ¬ mgrOk then
        (⟨400, "Invalid manager_id. Manager must have Manager/Admin role."⟩, s)
      else
        let u : User := ⟨s.next_user_id, admin_user.company_id, new_email, new_role,
                         manager_id_to_assign⟩
        (⟨201, new_role ++ " " ++ new_email ++ " created successfully."⟩,
         { s with users := s.users ++ [u], next_user_id := s.next_user_id + 1 })

/-- Lines 201-227: the admin flow-configuration endpoint.  The request is
    modelled with both payload parts present; the missing-key 400 branch
    is not representable in the typed request. -/
def configure_approval_flow (s : SysState) (flow_steps : List Step) (conditional_rule : CondRule) :
    Resp × SysState :=
  match get_current_user s.users 1 with
  | none => (⟨403, "Permission denied. Requires Admin role."⟩, s)
  | some admin_user =>
    if admin_user.role ≠ "Admin" then
      (⟨403, "Permission denied. Requires Admin role."⟩, s)
    else if ¬ flow_steps.all (fun st => ROLES.contains st.role) then
      (⟨400, "One or more roles in flow_steps are invalid."⟩, s)
    else
      let company_id := admin_user.company_id
      let newRules :=
        if (s.approval_rules.find? (fun p => p.1 == company_id)).isSome then
          s.approval_rules.map (fun p => if p.1 == company_id
            then (company_id, Flow.mk flow_steps conditional_rule) else p)
        else s.approval_rules ++ [(company_id, Flow.mk flow_steps conditional_rule)]
      (⟨201, "Approval flow configured successfully."⟩, { s with approval_rules := newRules })

/-- Lines 252-263 of submit_expense: the inline first-step approver
    resolution.  The manager reference is consulted only when the first
    step both names the Manager role and sets the is_manager_approver
    flag; every other step falls back to the first user holding the role. -/
def firstApproverId (users : List User) (current_user : User) (first_step : Step) : Option Nat :=
  if first_step.role == "Manager" && first_step.is_manager_approver then
    current_user.manager_id
  else
    (find_user_by_role users current_user.company_id first_step.role).map User.id

/-- Lines 233-290: the expense-submission endpoint.  The submitter is
    hardcoded to user id 3, as in the source.  The request is modelled
    with all required fields present, so the missing-field 400 branch is
    not representable; indexing an empty steps list raises in Python and
    is modelled as a 500 response with no mutation. -/
def submit_expense (s : SysState) (amount : ℚ) (currency category description date : String) :
    Resp × SysState :=
  match get_current_user s.users 3 with
  | none => (⟨403, "Permission denied. Requires Employee role."⟩, s)
  | some current_user =>
    if current_user.role ≠ "Employee" then
      (⟨403, "Permission denied. Requires Employee role."⟩, s)
    else
      match lookupFlow s.approval_rules current_user.company_id with
      | none => (⟨500, "Approval flow not configured by Admin. Cannot submit."⟩, s)
      | some flow =>
        match flow.steps[0]? with
        | none => (⟨500, "IndexError"⟩, s)
        | some first_step =>
          let first_approver_id := firstApproverId s.users current_user first_step
          if ¬ truthyId first_approver_id then
            (⟨500, "Cannot find an approver for the first step (" ++ first_step.role ++ ")."⟩, s)
          else
            let e : Expense :=
              ⟨s.next_expense_id, current_user.id, amount, pyUpper currency, category,
               description, date, "Submitted", 1, first_approver_id, []⟩
            (⟨201, "Expense submitted successfully, initiating multi-step approval."⟩,
             { s with expenses := s.expenses ++ [e],
                      next_expense_id := s.next_expense_id + 1 })

/-- Line 296 item shape of the pending-expenses view. -/
structure PendingItem where
  expense_id : Nat
  employee_email : String
  amount_original : String
  amount_company_currency : String
  description : String
  category : String
deriving Repr, DecidableEq

/-- Lines 296-330: the pending-expenses view.  This is the single place
    where mock_currency_conversion is consulted; it reads but never writes
    state.  A missing company raises KeyError in Python, modelled as a 500
    response; a dangling submitter reference would also raise, which no
    execution exercises, so the email lookup defaults to the empty
    string. -/
def view_pending_expenses (s : SysState) (approver_id : Nat) : Resp × List PendingItem :=
  match get_current_user s.users approver_id with
  | none => (⟨403, "Permission denied. Approver role required."⟩, [])
  | some approver =>
    if ¬ approver.role ∈ approverRoles then
      (⟨403, "Permission denied. Approver role required."⟩, [])
    else
      match s.companies.find? (fun c => c.id == approver.company_id) with
      | none => (⟨500, "KeyError"⟩, [])
      | some company =>
        let company_currency := company.currency
        let pending :=
          (s.expenses.filter
            (fun e => e.current_approver_id == some approver_id && e.status == "Submitted")).map
            (fun e =>
              let converted := mock_currency_conversion e.amount e.currency company_currency
              PendingItem.mk e.id
                (((get_current_user s.users e.user_id).map User.email).getD "")
                (toString e.amount ++ " " ++ e.currency)
                (toString converted ++ " " ++ company_currency)
                e.description e.category)
        (⟨200, toString pending.length ++ " expense(s) pending your approval."⟩, pending)

/-- Lines 333-409: the approval-action endpoint.  Both datetime.now()
    calls of one request are modelled by the same clock value.  The direct
    APPROVAL_RULES[company] and flow[index] lookups raise in Python when
    missing; by that point the history append has already mutated the
    expense, so those branches persist the partially updated expense and
    answer 500. -/
def handle_approval_action (s : SysState) (expense_id : Nat) (approver_id : Option Nat)
    (action comment : String) (now : Nat) : Resp × SysState :=
  match approver_id.bind (get_current_user s.users) with
  | none => (⟨403, "Permission denied. Invalid approver ID or role."⟩, s)
  | some approver =>
    if ¬ approver.role ∈ approverRoles then
      (⟨403, "Permission denied. Invalid approver ID or role."⟩, s)
    else
      match lookupExpense s.expenses expense_id with
      | none => (⟨404, "Expense not found."⟩, s)
      | some expense =>
        if expense.current_approver_id ≠ some approver.id then
          (⟨403, "You are not the current designated approver for this expense."⟩, s)
        else
          let rec1 : ApprovalRecord :=
            ⟨ApproverTag.user approver.id, approver.role, pyCapitalize action, comment, now⟩
          let expense1 :=
            { expense with approvals_history := expense.approvals_history ++ [rec1] }
          if action == "reject" then
            let e2 := { expense1 with status := "Rejected", current_approver_id := none }
            (⟨200, "Expense claim **Rejected**."⟩,
             { s with expenses := updateExpense s.expenses e2 })
          else
            let ca := apply_conditional_rules s.approval_rules approver.company_id
                        expense1.approvals_history
            if ca.1 then
              let sysrec : ApprovalRecord :=
                ⟨ApproverTag.system, "Auto-Approval Engine", "Approved", ca.2.getD "", now⟩
              let e2 := { expense1 with status := "Approved", current_approver_id := none,
                                        approvals_history :=
                                          expense1.approvals_history ++ [sysrec] }
              (⟨200, "Expense **AUTO-APPROVED**! " ++ ca.2.getD ""⟩,
               { s with expenses := updateExpense s.expenses e2 })
            else
              match lookupFlow s.approval_rules approver.company_id with
              | none => (⟨500, "KeyError"⟩, { s with expenses := updateExpense s.expenses expense1 })
              | some flowDef =>
                let flow := flowDef.steps
                let current_step_index := expense1.current_step - 1
                if current_step_index + 1 < flow.length then
                  let newStep := expense1.current_step + 1
                  match flow[newStep - 1]? with
                  | none =>
                    let e2 := { expense1 with current_step := newStep }
                    (⟨500, "IndexError"⟩,
                     { s with expenses := updateExpense s.expenses e2 })
                  | some next_step =>
                    match find_user_by_role s.users approver.company_id next_step.role with
                    | some next_approver_user =>
                      let e2 := { expense1 with current_step := newStep,
                                                current_approver_id :=
                                                  some next_approver_user.id }
                      (⟨200, "Expense approved. Routed to next approver."⟩,
                       { s with expenses := updateExpense s.expenses e2 })
                    | none =>
                      let e2 := { expense1 with current_step := newStep,
                                                status := "Approval Halted",
                                                current_approver_id := none }
                      (⟨200, "Expense approved, but could not find a user for role "
                              ++ next_step.role ++ ". Approval Halted."⟩,
                       { s with expenses := updateExpense s.expenses e2 })
                else
                  let e2 := { expense1 with status := "Approved", current_approver_id := none }
                  (⟨200, "Expense **Fully Approved**!"⟩,
                   { s with expenses := updateExpense s.expenses e2 })

/-- One request to any state-mutating endpoint. -/
inductive Event where
  | signupEv (email : String)
  | manageUserEv (email role : String) (manager_id : Option Nat)
  | configureFlowEv (steps : List Step) (rule : CondRule)
  | submitEv (amount : ℚ) (currency category description date : String)
  | actionEv (expense_id : Nat) (approver_id : Option Nat) (action comment : String)
deriving Repr

def applyEvent (s : SysState) (ev : Event) (now : Nat) : Resp × SysState :=
  match ev with
  | .signupEv email => signup s email
  | .manageUserEv email role mid => manage_user s email role mid
  | .configureFlowEv steps rule => configure_approval_flow s steps rule
  | .submitEv a c cat d dt => submit_expense s a c cat d dt
  | .actionEv eid aid act cm => handle_approval_action s eid aid act cm now

def stepSys (s : SysState) (ev : Event) (now : Nat) : SysState := (applyEvent s ev now).2

/-- States the running process can be in: any directory contents before
    the first expense exists (covering both the endpoint-created and the
    demo-block-created directories), then closed under the endpoints. -/
inductive Reachable : SysState → Prop where
  | init (s : SysState) (h : s.expenses = []) : Reachable s
  | step (s : SysState) (ev : Event) (now : Nat) (h : Reachable s) : Reachable (stepSys s ev now)

/-- The directory, flow and Specific(Director) rule that the demo block
    at the bottom of the source file creates before serving requests. -/
def demoState : SysState :=
  { companies := [⟨1, "Default Company 1", "USD"⟩],
    users :=
      [⟨1, 1, "admin@company.com", "Admin", none⟩,
       ⟨2, 1, "manager@company.com", "Manager", some 1⟩,
       ⟨3, 1, "employee@company.com", "Employee", some 2⟩,
       ⟨4, 1, "finance@company.com", "Finance", some 1⟩,
       ⟨5, 1, "director@company.com", "Director", some 1⟩],
    expenses := [],
    approval_rules :=
      [(1, ⟨[⟨"Manager", true⟩, ⟨"Finance", false⟩, ⟨"Director", false⟩],
            ⟨some "Specific", some "Director", none, some 100⟩⟩)],
    next_company_id := 2, next_user_id := 6, next_expense_id := 1 }

/-- demoState after one successful submission by the employee. -/
def demoSubmitted : SysState :=
  stepSys demoState (.submitEv 100 "USD" "Travel" "Taxi" "2026-01-01") 0

/-- The per-expense shape every branch of the engine maintains: the
    current approver reference is present exactly while the claim is
    Submitted. -/
def expenseApproverInv (e : Expense) : Prop :=
  e.current_approver_id ≠ none ↔ e.status = "Submitted"

instance (e : Expense) : Decidable (expenseApproverInv e) := by
  unfold expenseApproverInv; infer_instance

def ExpensesInv (s : SysState) : Prop := ∀ e ∈ s.expenses, expenseApproverInv e

theorem truthyId_ne_none {o : Option Nat} (h : truthyId o = true) : o ≠ none := by
  cases o <;> simp [truthyId] at h ⊢

theorem updateExpense_forall {P : Expense → Prop} {es : List Expense} {e2 : Expense}
    (h : ∀ e ∈ es, P e) (h2 : P e2) : ∀ e ∈ updateExpense es e2, P e := by
  intro e he
  unfold updateExpense at he
  rcases List.mem_map.mp he with ⟨x, hx, hxe⟩
  by_cases hc : (x.id == e2.id) = true
  · rw [if_pos hc] at hxe; exact hxe ▸ h2
  · rw [if_neg hc] at hxe; exact hxe ▸ h x hx

theorem mem_of_lookupExpense {es : List Expense} {eid : Nat} {e : Expense}
    (h : lookupExpense es eid = some e) : e ∈ es :=
  List.mem_of_find?_eq_some h

theorem lookupExpense_id {es : List Expense} {eid : Nat} {e : Expense}
    (h : lookupExpense es eid = some e) : e.id = eid := by
  have h2 := List.find?_some h
  simpa using h2

theorem signup_inv (s : SysState) (email : String) (h : ExpensesInv s) :
    ExpensesInv ((signup s email).2) := by
  unfold signup
  split <;> exact h

theorem manage_user_inv (s : SysState) (a b : String) (m : Option Nat) (h : ExpensesInv s) :
    ExpensesInv ((manage_user s a b m).2) := by
  unfold manage_user
  dsimp only
  repeat' split
  all_goals exact h

theorem configure_inv (s : SysState) (steps : List Step) (rule : CondRule) (h : ExpensesInv s) :
    ExpensesInv ((configure_approval_flow s steps rule).2) := by
  unfold configure_approval_flow
  split
  · exact h
  · split
    · exact h
    · split
      · exact h
      · exact h

theorem submit_inv (s : SysState) (a : ℚ) (c cat d dt : String) (h : ExpensesInv s) :
    ExpensesInv ((submit_expense s a c cat d dt).2) := by
  unfold submit_expense
  split
  · exact h
  next current_user hu =>
    split
    · exact h
    · split
      · exact h
      next flow hflow =>
        split
        · exact h
        next first_step hstep =>
          dsimp only
          split
          · exact h
          next hfa =>
            have hfa2 : truthyId (firstApproverId s.users current_user first_step) = true := by
              by_contra hcon
              exact hfa (by simpa using hcon)
            intro e he
            rcases List.mem_append.mp he with h1 | h1
            · exact h e h1
            · have he2 := List.mem_singleton.mp h1
              subst he2
              constructor
              · intro _; rfl
              · intro _; exact truthyId_ne_none hfa2

theorem handle_inv (s : SysState) (eid : Nat) (aid : Option Nat) (act cm : String) (now : Nat)
    (h : ExpensesInv s) : ExpensesInv ((handle_approval_action s eid aid act cm now).2) := by
  unfold handle_approval_action
  split
  · exact h
  next approver hap =>
    split
    · exact h
    next hrole =>
      split
      · exact h
      next expense hexp =>
        split
        · exact h
        next hcur =>
          have hcur2 : expense.current_approver_id = some approver.id := not_ne_iff.mp hcur
          have hsub : expense.status = "Submitted" :=
            (h expense (mem_of_lookupExpense hexp)).mp (by simp [hcur2])
          dsimp only
          split
          · intro e he
            refine updateExpense_forall h ?_ e he
            constructor
            · intro hne; exact absurd rfl hne
            · intro hst; simp at hst
          · split
            · intro e he
              refine updateExpense_forall h ?_ e he
              constructor
              · intro hne; exact absurd rfl hne
              · intro hst; simp at hst
            · split
              · intro e he
                refine updateExpense_forall h ?_ e he
                constructor
                · intro _; exact hsub
                · intro _; simp [hcur2]
              · split
                · split
                  · intro e he
                    refine updateExpense_forall h ?_ e he
                    constructor
                    · intro _; exact hsub
                    · intro _; simp [hcur2]
                  · split
                    · intro e he
                      refine updateExpense_forall h ?_ e he
                      constructor
                      · intro _; exact hsub
                      · intro _; simp
                    · intro e he
                      refine updateExpense_forall h ?_ e he
                      constructor
                      · intro hne; exact absurd rfl hne
                      · intro hst; simp at hst
                · intro e he
                  refine updateExpense_forall h ?_ e he
                  constructor
                  · intro hne; exact absurd rfl hne
                  · intro hst; simp at hst

/-- Every state the process can reach keeps the approver-iff-Submitted
    shape on every stored expense. -/
theorem reachable_inv {s : SysState} (h : Reachable s) : ExpensesInv s := by
  induction h with
  | init s h => intro e he; rw [h] at he; cases he
  | step s ev now h ih =>
    unfold stepSys applyEvent
    cases ev with
    | signupEv email => exact signup_inv _ _ ih
    | manageUserEv a b m => exact manage_user_inv _ _ _ _ ih
    | configureFlowEv a b => exact configure_inv _ _ _ ih
    | submitEv a b c d e => exact submit_inv _ _ _ _ _ _ ih
    | actionEv a b c d => exact handle_inv _ _ _ _ _ _ ih

/-- Scenario A of the spec run against the demo configuration with the
    action vocabulary the source documents (action equals approve),
    acting in order as the Manager (id 2), the Finance member (id 4) and
    the Director (id 5). -/
def scenarioA : Resp × SysState :=
  applyEvent
    (stepSys (stepSys demoSubmitted (Event.actionEv 1 (some 2) "approve" "") 1)
      (Event.actionEv 1 (some 4) "approve" "") 2)
    (Event.actionEv 1 (some 5) "approve" "") 3

/-- Claim C1: the spec says the Scenario A run (three steps Manager,
    Finance, Director with rule Specific(Director), submit then approve as
    Manager, Finance, Director) ends Approved with an auto-approval
    message naming the Specific rule and a synthetic system record in
    history.  The code does reach Approved, but through the plain
    final-step branch: each real history record stores the capitalized
    action string Approve, while the Specific(Director) evaluator matches
    only the exact string Approved, so the auto-approval message is never
    produced and no synthetic record is appended.  This theorem evaluates
    the run at the failing input: the response is the plain full-approval
    message and the history holds exactly the three human records. -/
theorem c1_scenarioA_approve_run :
    scenarioA.1 = ⟨200, "Expense **Fully Approved**!"⟩ ∧
    (lookupExpense scenarioA.2.expenses 1).map Expense.status = some "Approved" ∧
    (lookupExpense scenarioA.2.expenses 1).map
        (fun e => e.approvals_history.map ApprovalRecord.role) =
      some ["Manager", "Finance", "Director"] := by
  decide

/-- Claim C7: for every expense of every reachable system state, the
    current approver reference is set if and only if the status is
    Submitted; submission establishes it and every transition to Rejected,
    Approved or Approval Halted clears it. -/
theorem c7_approver_iff_submitted {s : SysState} (h : Reachable s) :
    ∀ e ∈ s.expenses, (e.current_approver_id ≠ none ↔ e.status = "Submitted") :=
  reachable_inv h

/-- Witness for C7 at the concrete pending expense of the reachable
    one-submission demo state. -/
theorem c7_approver_iff_submitted_witness :
    ((⟨1, 3, 100, "USD", "Travel", "Taxi", "2026-01-01", "Submitted", 1, some 2,
        []⟩ : Expense).current_approver_id ≠ none ↔
      (⟨1, 3, 100, "USD", "Travel", "Taxi", "2026-01-01", "Submitted", 1, some 2,
        []⟩ : Expense).status = "Submitted") :=
  c7_approver_iff_submitted
    (Reachable.step demoState (Event.submitEv 100 "USD" "Travel" "Taxi" "2026-01-01") 0
      (Reachable.init demoState rfl))
    ⟨1, 3, 100, "USD", "Travel", "Taxi", "2026-01-01", "Submitted", 1, some 2, []⟩
    (by decide)

/-- Spec-side wording for the Percentage rule: the set of distinct roles
    appearing in the workflow step list. -/
def specWorkflowRoles (steps : List Step) : Finset String :=
  (steps.map Step.role).toFinset

/-- Spec-side wording: the distinct workflow roles having at least one
    Approved entry in the history. -/
def specApprovedRoles (steps : List Step) (hist : List ApprovalRecord) : Finset String :=
  (specWorkflowRoles steps).filter (fun r => ∃ a ∈ hist, a.role = r ∧ a.status = "Approved")

theorem workflow_roles_card (steps : List Step) :
    ((steps.map Step.role).dedup).length = (specWorkflowRoles steps).card := by
  rw [specWorkflowRoles, List.card_toFinset]

/-- Bridge between the role set the code computes (a deduplicated list of
    the roles of Approved entries restricted to workflow roles) and the
    claim wording (distinct workflow roles with at least one Approved
    entry). -/
theorem approved_roles_card (steps : List Step) (hist : List ApprovalRecord) :
    (List.map ApprovalRecord.role
        (List.filter (fun a => a.status == "Approved" && decide (∃ s ∈ steps, s.role = a.role))
          hist)).dedup.length
      = (specApprovedRoles steps hist).card := by
  rw [← List.card_toFinset]
  congr 1
  ext r
  simp only [List.mem_toFinset, List.mem_map, List.mem_filter, Bool.and_eq_true, beq_iff_eq,
    decide_eq_true_eq, specApprovedRoles, specWorkflowRoles, Finset.mem_filter]
  constructor
  · rintro ⟨a, ⟨ha, hs, s, hsmem, hrole⟩, rfl⟩
    exact ⟨⟨s, hsmem, hrole⟩, a, ha, rfl, hs⟩
  · rintro ⟨hr, a, ha, rfl, hs⟩
    obtain ⟨s, hsmem, hrole⟩ := hr
    exact ⟨a, ⟨ha, hs, s, hsmem, hrole⟩, rfl⟩

theorem lookupFlow_singleton (cid : Nat) (f : Flow) : lookupFlow [(cid, f)] cid = some f := by
  simp [lookupFlow]

/-- Claim C2, amended: for a Percentage rule whose threshold is nonzero,
    the evaluator answers satisfied exactly when the workflow role set is
    non-empty and the fraction of distinct workflow roles holding at least
    one Approved history entry reaches threshold/100 (inclusive); role
    sets, so repeated approvals by one role count once and entries whose
    decision is not the exact string Approved never count.  The amendment
    excludes threshold 0, where the falsy-threshold guard skips the rule
    (see the counterexample). -/
theorem c2_percentage_rule (cid : Nat) (steps : List Step) (rr sr : Option String) (t : ℚ)
    (ht : t ≠ 0) (hist : List ApprovalRecord) :
    ((apply_conditional_rules [(cid, Flow.mk steps ⟨some "Percentage", rr, sr, some t⟩)]
        cid hist).1 = true) ↔
      ((specWorkflowRoles steps).Nonempty ∧
        ((specApprovedRoles steps hist).card : ℚ) / ((specWorkflowRoles steps).card : ℚ)
          ≥ t / 100) := by
  have htb : (t == (0 : ℚ)) = false := beq_eq_false_iff_ne.mpr ht
  simp [apply_conditional_rules, lookupFlow_singleton, truthyNum, htb]
  rw [approved_roles_card, workflow_roles_card]
  split
  next hcond =>
    constructor
    · intro _
      exact ⟨Finset.card_pos.mp hcond.1, hcond.2⟩
    · intro _
      rfl
  next hcond =>
    constructor
    · intro hfalse
      simp at hfalse
    · intro hr
      exact absurd ⟨Finset.card_pos.mpr hr.1, hr.2⟩ hcond

/-- Witness for C2 at a concrete input: Percentage 50 over the two-role
    step list Finance, Director with only Finance having approved. -/
theorem c2_percentage_rule_witness :
    (50 : ℚ) ≠ 0 ∧
    (((apply_conditional_rules
        [(1, Flow.mk [⟨"Finance", false⟩, ⟨"Director", false⟩]
              ⟨some "Percentage", none, none, some 50⟩)] 1
        [⟨ApproverTag.user 4, "Finance", "Approved", "", 0⟩]).1 = true) ↔
      ((specWorkflowRoles [⟨"Finance", false⟩, ⟨"Director", false⟩]).Nonempty ∧
        ((specApprovedRoles [⟨"Finance", false⟩, ⟨"Director", false⟩]
              [⟨ApproverTag.user 4, "Finance", "Approved", "", 0⟩]).card : ℚ)
            / ((specWorkflowRoles [⟨"Finance", false⟩, ⟨"Director", false⟩]).card : ℚ)
          ≥ 50 / 100)) :=
  ⟨by norm_num,
   c2_percentage_rule 1 [⟨"Finance", false⟩, ⟨"Director", false⟩] none none 50 (by norm_num)
     [⟨ApproverTag.user 4, "Finance", "Approved", "", 0⟩]⟩

/-- Counterexample to C2 as stated: with threshold 0 (allowed by the
    claim, which spans 0 to 100 inclusive), a one-step Manager workflow
    and empty history, the claim formula holds (0/1 is at least 0/100) but
    the evaluator treats the falsy threshold as no rule configured and
    answers not satisfied. -/
theorem c2_threshold_zero_cex :
    ((apply_conditional_rules
        [(1, Flow.mk [⟨"Manager", false⟩] ⟨some "Percentage", none, none, some 0⟩)] 1 []).1
      = false)
    ∧ (specWorkflowRoles [⟨"Manager", false⟩]).Nonempty
    ∧ ((specApprovedRoles [⟨"Manager", false⟩] []).card : ℚ)
        / ((specWorkflowRoles [⟨"Manager", false⟩]).card : ℚ) ≥ (0 : ℚ) / 100 := by
  refine ⟨by decide, ⟨"Manager", by decide⟩, ?_⟩
  have h1 : (specApprovedRoles [⟨"Manager", false⟩] []).card = 0 := by decide
  have h2 : (specWorkflowRoles [⟨"Manager", false⟩]).card = 1 := by decide
  rw [h1, h2]
  norm_num

/-- Claim C3, amended: for a Hybrid rule carrying a non-empty specific
    role and a nonzero threshold, the evaluator is satisfied exactly when
    the Specific check on that role or the Percentage check on that
    threshold is satisfied, and whenever the Specific check holds the
    returned reason is the Specific message (the Specific check runs
    first).  The amendment excludes threshold 0 (and an empty specific
    role), where the falsy-field guard skips the whole Hybrid rule (see
    the counterexample). -/
theorem c3_hybrid_rule (cid : Nat) (steps : List Step) (rr : Option String) (sr : String) (t : ℚ)
    (hsr : sr ≠ "") (ht : t ≠ 0) (hist : List ApprovalRecord) :
    (((apply_conditional_rules [(cid, Flow.mk steps ⟨some "Hybrid", rr, some sr, some t⟩)]
        cid hist).1 = true) ↔
      ((∃ a ∈ hist, a.role = sr ∧ a.status = "Approved") ∨
        ((specWorkflowRoles steps).Nonempty ∧
          ((specApprovedRoles steps hist).card : ℚ) / ((specWorkflowRoles steps).card : ℚ)
            ≥ t / 100))) ∧
    ((∃ a ∈ hist, a.role = sr ∧ a.status = "Approved") →
      apply_conditional_rules [(cid, Flow.mk steps ⟨some "Hybrid", rr, some sr, some t⟩)] cid hist
        = (true, some ("Conditional Hybrid Rule Met: Specific approver (" ++ sr ++ ") Approved."))) := by
  have htb : (t == (0 : ℚ)) = false := beq_eq_false_iff_ne.mpr ht
  have hsrb : (sr == "") = false := beq_eq_false_iff_ne.mpr hsr
  simp [apply_conditional_rules, lookupFlow_singleton, truthyNum, truthyStr, htb, hsrb]
  rw [approved_roles_card, workflow_roles_card]
  constructor
  · split
    next hspec => simp [hspec]
    next hspec =>
      split
      next hcond =>
        constructor
        · intro _
          exact Or.inr ⟨Finset.card_pos.mp hcond.1, hcond.2⟩
        · intro _
          rfl
      next hcond =>
        constructor
        · intro hfalse
          simp at hfalse
        · rintro (h | h)
          · exact absurd h hspec
          · exact absurd ⟨Finset.card_pos.mpr h.1, h.2⟩ hcond
  · intro x hx hrole hstat hnone
    exact absurd hstat (hnone x hx hrole)

/-- Witness for C3 at a concrete input: Hybrid(Director, 100) over the
    demo step list with a Director approval in history. -/
theorem c3_hybrid_rule_witness :
    ("Director" : String) ≠ "" ∧ (100 : ℚ) ≠ 0 ∧
    ((((apply_conditional_rules
          [(1, Flow.mk [⟨"Manager", true⟩, ⟨"Finance", false⟩, ⟨"Director", false⟩]
                ⟨some "Hybrid", none, some "Director", some 100⟩)] 1
          [⟨ApproverTag.user 5, "Director", "Approved", "", 0⟩]).1 = true) ↔
        ((∃ a ∈ [⟨ApproverTag.user 5, "Director", "Approved", "", 0⟩],
            ApprovalRecord.role a = "Director" ∧ ApprovalRecord.status a = "Approved") ∨
          ((specWorkflowRoles
                [⟨"Manager", true⟩, ⟨"Finance", false⟩, ⟨"Director", false⟩]).Nonempty ∧
            ((specApprovedRoles [⟨"Manager", true⟩, ⟨"Finance", false⟩, ⟨"Director", false⟩]
                  [⟨ApproverTag.user 5, "Director", "Approved", "", 0⟩]).card : ℚ)
                / ((specWorkflowRoles
                      [⟨"Manager", true⟩, ⟨"Finance", false⟩, ⟨"Director", false⟩]).card : ℚ)
              ≥ 100 / 100))) ∧
      ((∃ a ∈ [⟨ApproverTag.user 5, "Director", "Approved", "", 0⟩],
          ApprovalRecord.role a = "Director" ∧ ApprovalRecord.status a = "Approved") →
        apply_conditional_rules
            [(1, Flow.mk [⟨"Manager", true⟩, ⟨"Finance", false⟩, ⟨"Director", false⟩]
                  ⟨some "Hybrid", none, some "Director", some 100⟩)] 1
            [⟨ApproverTag.user 5, "Director", "Approved", "", 0⟩]
          = (true, some ("Conditional Hybrid Rule Met: Specific approver (Director) Approved.")))) :=
  ⟨by decide, by norm_num,
   by
    have h := c3_hybrid_rule 1 [⟨"Manager", true⟩, ⟨"Finance", false⟩, ⟨"Director", false⟩]
      none "Director" 100 (by decide) (by norm_num)
      [⟨ApproverTag.user 5, "Director", "Approved", "", 0⟩]
    exact h⟩

/-- Counterexample to C3 as stated: a Hybrid rule carrying specific role
    Director and threshold 0, with a Director approval in history; the
    Specific disjunct of the claim holds, yet the evaluator answers not
    satisfied because the falsy threshold makes it skip the Hybrid rule
    entirely. -/
theorem c3_threshold_zero_cex :
    ((apply_conditional_rules
        [(1, Flow.mk [⟨"Manager", false⟩] ⟨some "Hybrid", none, some "Director", some 0⟩)] 1
        [⟨ApproverTag.user 5, "Director", "Approved", "ok", 0⟩]).1 = false)
    ∧ (∃ a ∈ ([⟨ApproverTag.user 5, "Director", "Approved", "ok", 0⟩] : List ApprovalRecord),
        ApprovalRecord.role a = "Director" ∧ ApprovalRecord.status a = "Approved") := by
  constructor
  · decide
  · exact ⟨⟨ApproverTag.user 5, "Director", "Approved", "ok", 0⟩, by decide, rfl, rfl⟩

theorem lookupExpense_update (es : List Expense) (eid : Nat) (e e2 : Expense)
    (h : lookupExpense es eid = some e) (hid : e2.id = e.id) :
    lookupExpense (updateExpense es e2) eid = some e2 := by
  have heid : (e.id == eid) = true := by simpa using List.find?_some h
  unfold lookupExpense updateExpense at *
  induction es with
  | nil => simp at h
  | cons x xs ih =>
    by_cases hx : (x.id == eid) = true
    · simp only [List.find?_cons, hx] at h
      injection h with h
      subst h
      have hxe2 : (x.id == e2.id) = true := by rw [hid]; simp
      have he2id : (e2.id == eid) = true := by rw [hid]; exact heid
      simp only [List.map_cons]
      rw [if_pos hxe2]
      simp only [List.find?_cons, he2id]
    · have hxf : (x.id == eid) = false := by simpa using hx
      simp only [List.find?_cons, hxf] at h
      have hxe2 : (x.id == e2.id) = false := by
        apply beq_eq_false_iff_ne.mpr
        intro hcon
        apply hx
        rw [hcon, hid]
        exact heid
      simp only [List.map_cons]
      rw [if_neg (by simp [hxe2])]
      simp only [List.find?_cons, hxf]
      exact ih h

/-- Claim C4, amended: the manager flag matters for the first step only
    and only together with role Manager.  Part one: a first step with role
    Manager and the flag set resolves to the submitter manager reference
    (none exactly when the submitter has none).  Part two: a first step
    whose role differs from Manager, or whose flag is unset, resolves by
    role lookup even when flagged.  Part three: on every later step the
    routing ignores the flag entirely and resolves the newly reached step
    by role lookup, halting when that lookup is empty. -/
theorem c4_manager_flag_resolution :
    (∀ (users : List User) (cu : User) (st : Step),
       st.role = "Manager" → st.is_manager_approver = true →
       firstApproverId users cu st = cu.manager_id) ∧
    (∀ (users : List User) (cu : User) (st : Step),
       (st.role ≠ "Manager" ∨ st.is_manager_approver = false) →
       firstApproverId users cu st = (find_user_by_role users cu.company_id st.role).map User.id) ∧
    (∀ (s : SysState) (eid : Nat) (aid : Option Nat) (act cm : String) (now : Nat)
       (ap : User) (e : Expense) (fl : Flow) (st : Step),
       aid.bind (get_current_user s.users) = some ap →
       ap.role ∈ approverRoles →
       lookupExpense s.expenses eid = some e →
       e.current_approver_id = some ap.id →
       act ≠ "reject" →
       (apply_conditional_rules s.approval_rules ap.company_id
         (e.approvals_history
           ++ [⟨ApproverTag.user ap.id, ap.role, pyCapitalize act, cm, now⟩])).1 = false →
       lookupFlow s.approval_rules ap.company_id = some fl →
       e.current_step - 1 + 1 < fl.steps.length →
       fl.steps[e.current_step + 1 - 1]? = some st →
       ∃ e2, lookupExpense ((handle_approval_action s eid aid act cm now).2).expenses eid
               = some e2 ∧
         e2.current_approver_id = (find_user_by_role s.users ap.company_id st.role).map User.id) := by
  refine ⟨?_, ?_, ?_⟩
  · intro users cu st h1 h2
    simp [firstApproverId, h1, h2]
  · intro users cu st hd
    rcases hd with h | h
    · have hb : (st.role == "Manager") = false := beq_eq_false_iff_ne.mpr h
      simp [firstApproverId, hb]
    · simp [firstApproverId, h]
  · intro s eid aid act cm now ap e fl st hap hrole he hcur hact hca hfl hidx hst
    have hactb : (act == "reject") = false := beq_eq_false_iff_ne.mpr hact
    simp only [handle_approval_action, hap]
    rw [if_neg (not_not_intro hrole)]
    simp only [he]
    rw [if_neg (not_not_intro hcur)]
    simp only [hactb, Bool.false_eq_true, if_false]
    simp only [hca, Bool.false_eq_true, if_false]
    simp only [hfl]
    rw [if_pos hidx]
    simp only [hst]
    cases hfind : find_user_by_role s.users ap.company_id st.role with
    | some nu =>
      simp only [hfind]
      refine ⟨_, lookupExpense_update _ _ _ _ he rfl, rfl⟩
    | none =>
      simp only [hfind]
      refine ⟨_, lookupExpense_update _ _ _ _ he rfl, rfl⟩

/-- Directory with a two-step flow Manager then Finance where the second
    step carries the manager flag; used to show the flag is ignored after
    the first step. -/
def c4FlowState : SysState :=
  { companies := [⟨1, "Default Company 1", "USD"⟩],
    users :=
      [⟨2, 1, "manager@company.com", "Manager", some 1⟩,
       ⟨3, 1, "employee@company.com", "Employee", some 2⟩,
       ⟨4, 1, "finance@company.com", "Finance", some 1⟩],
    expenses := [],
    approval_rules := [(1, ⟨[⟨"Manager", false⟩, ⟨"Finance", true⟩], CondRule.empty⟩)],
    next_company_id := 2, next_user_id := 5, next_expense_id := 1 }

def c4FlowSubmitted : SysState :=
  stepSys c4FlowState (Event.submitEv 60 "USD" "Travel" "Taxi" "2026-01-01") 0

/-- Witness for C4 instantiating all three parts at concrete inputs. -/
theorem c4_manager_flag_resolution_witness :
    (firstApproverId [] ⟨3, 1, "employee@company.com", "Employee", some 2⟩ ⟨"Manager", true⟩
        = some 2) ∧
    (firstApproverId c4FlowState.users ⟨3, 1, "employee@company.com", "Employee", some 2⟩
        ⟨"Finance", true⟩
      = (find_user_by_role c4FlowState.users 1 "Finance").map User.id) ∧
    (∃ e2, lookupExpense
        ((handle_approval_action c4FlowSubmitted 1 (some 2) "approve" "" 1).2).expenses 1
          = some e2 ∧
      e2.current_approver_id = (find_user_by_role c4FlowSubmitted.users 1 "Finance").map User.id) :=
  ⟨c4_manager_flag_resolution.1 [] ⟨3, 1, "employee@company.com", "Employee", some 2⟩
     ⟨"Manager", true⟩ rfl rfl,
   c4_manager_flag_resolution.2.1 c4FlowState.users
     ⟨3, 1, "employee@company.com", "Employee", some 2⟩ ⟨"Finance", true⟩ (Or.inl (by decide)),
   c4_manager_flag_resolution.2.2 c4FlowSubmitted 1 (some 2) "approve" "" 1
     ⟨2, 1, "manager@company.com", "Manager", some 1⟩
     ⟨1, 3, 60, "USD", "Travel", "Taxi", "2026-01-01", "Submitted", 1, some 2, []⟩
     ⟨[⟨"Manager", false⟩, ⟨"Finance", true⟩], CondRule.empty⟩ ⟨"Finance", true⟩
     rfl (by decide) rfl rfl (by decide) (by decide) rfl (by decide) rfl⟩

/-- Directory whose single flow step carries the manager flag but names
    the Finance role. -/
def c4State : SysState :=
  { companies := [⟨1, "Default Company 1", "USD"⟩],
    users :=
      [⟨2, 1, "manager@company.com", "Manager", some 1⟩,
       ⟨3, 1, "employee@company.com", "Employee", some 2⟩,
       ⟨4, 1, "finance@company.com", "Finance", some 1⟩],
    expenses := [],
    approval_rules := [(1, ⟨[⟨"Finance", true⟩], CondRule.empty⟩)],
    next_company_id := 2, next_user_id := 5, next_expense_id := 1 }

/-- Counterexample to C4 as stated: the first step is flagged as manager
    step but names the Finance role; the submitter has manager id 2, yet
    submission resolves the step to the Finance user id 4, not to the
    manager reference. -/
theorem c4_flagged_step_cex :
    ((submit_expense c4State 50 "USD" "Travel" "Taxi" "2026-01-01").1).code = 201 ∧
    (lookupExpense ((submit_expense c4State 50 "USD" "Travel" "Taxi" "2026-01-01").2).expenses
        1).map Expense.current_approver_id = some (some 4) ∧
    (get_current_user c4State.users 3).map User.manager_id = some (some 2) ∧
    ((some 4 : Option Nat) ≠ some 2) := by
  decide

/-- Claim C5: the recordAction preconditions in checking order.  If the
    expense does not exist the call errors without mutation, and when the
    acting approver passes the role gate the error is precisely the 404
    not-found response, regardless of the other conditions.  If the
    expense exists but is not Submitted (possible only as a terminal
    state, where the invariant forces a cleared approver) the call errors
    without mutation.  If the expense exists, is Submitted, and the actor
    is not the current approver, the call errors without mutation. -/
theorem c5_act_preconditions (s : SysState) (hs : Reachable s) (eid : Nat) (aid : Option Nat)
    (act cm : String) (now : Nat) :
    (lookupExpense s.expenses eid = none →
       400 ≤ ((handle_approval_action s eid aid act cm now).1).code ∧
       (handle_approval_action s eid aid act cm now).2 = s) ∧
    (∀ ap, aid.bind (get_current_user s.users) = some ap → ap.role ∈ approverRoles →
       lookupExpense s.expenses eid = none →
       (handle_approval_action s eid aid act cm now).1 = ⟨404, "Expense not found."⟩ ∧
       (handle_approval_action s eid aid act cm now).2 = s) ∧
    (∀ e, lookupExpense s.expenses eid = some e → e.status ≠ "Submitted" →
       400 ≤ ((handle_approval_action s eid aid act cm now).1).code ∧
       (handle_approval_action s eid aid act cm now).2 = s) ∧
    (∀ e ap, lookupExpense s.expenses eid = some e →
       aid.bind (get_current_user s.users) = some ap →
       e.current_approver_id ≠ some ap.id →
       400 ≤ ((handle_approval_action s eid aid act cm now).1).code ∧
       (handle_approval_action s eid aid act cm now).2 = s) := by
  refine ⟨?_, ?_, ?_, ?_⟩
  · intro hn
    cases hb : aid.bind (get_current_user s.users) with
    | none =>
      simp only [handle_approval_action, hb]
      exact ⟨by norm_num, by norm_num⟩
    | some ap =>
      simp only [handle_approval_action, hb]
      by_cases hr : ap.role ∈ approverRoles
      · rw [if_neg (not_not_intro hr)]
        simp only [hn]
        exact ⟨by norm_num, by norm_num⟩
      · rw [if_pos hr]
        exact ⟨by norm_num, by norm_num⟩
  · intro ap hb hr hn
    simp only [handle_approval_action, hb]
    rw [if_neg (not_not_intro hr)]
    simp only [hn]
    exact ⟨by norm_num, by norm_num⟩
  · intro e he hstat
    have hnone : e.current_approver_id = none := by
      by_contra hcon
      exact hstat ((reachable_inv hs e (mem_of_lookupExpense he)).mp hcon)
    cases hb : aid.bind (get_current_user s.users) with
    | none =>
      simp only [handle_approval_action, hb]
      exact ⟨by norm_num, by norm_num⟩
    | some ap =>
      simp only [handle_approval_action, hb]
      by_cases hr : ap.role ∈ approverRoles
      · rw [if_neg (not_not_intro hr)]
        simp only [he]
        rw [if_pos (by rw [hnone]; simp)]
        exact ⟨by norm_num, by norm_num⟩
      · rw [if_pos hr]
        exact ⟨by norm_num, by norm_num⟩
  · intro e ap he hb hmis
    simp only [handle_approval_action, hb]
    by_cases hr : ap.role ∈ approverRoles
    · rw [if_neg (not_not_intro hr)]
      simp only [he]
      rw [if_pos hmis]
      exact ⟨by norm_num, by norm_num⟩
    · rw [if_pos hr]
      exact ⟨by norm_num, by norm_num⟩

/-- Witness for C5: on the reachable one-pending-claim demo state, acting
    on an unknown expense id as a valid approver answers 404 and leaves
    the state untouched. -/
theorem c5_act_preconditions_witness :
    Reachable demoSubmitted ∧
    ((handle_approval_action demoSubmitted 99 (some 2) "approve" "" 5).1
        = ⟨404, "Expense not found."⟩ ∧
      (handle_approval_action demoSubmitted 99 (some 2) "approve" "" 5).2 = demoSubmitted) :=
  ⟨Reachable.step demoState (Event.submitEv 100 "USD" "Travel" "Taxi" "2026-01-01") 0
      (Reachable.init demoState rfl),
   (c5_act_preconditions demoSubmitted
      (Reachable.step demoState (Event.submitEv 100 "USD" "Travel" "Taxi" "2026-01-01") 0
        (Reachable.init demoState rfl)) 99 (some 2) "approve" "" 5).2.1
     ⟨2, 1, "manager@company.com", "Manager", some 1⟩ rfl (by decide) rfl⟩

/-- Claim C6: once a reachable claim is terminal (Approved, Rejected or
    Approval Halted), every further action call on it answers a 403
    PermissionError or 404 NotFoundError and leaves the whole state
    unchanged; with the claim present, the code path always yields 403
    because the terminal claim has no current approver to match. -/
theorem c6_terminal_claims_frozen (s : SysState) (hs : Reachable s) (eid : Nat) (aid : Option Nat)
    (act cm : String) (now : Nat) (e : Expense)
    (he : lookupExpense s.expenses eid = some e)
    (ht : e.status = "Approved" ∨ e.status = "Rejected" ∨ e.status = "Approval Halted") :
    (((handle_approval_action s eid aid act cm now).1).code = 403 ∨
      ((handle_approval_action s eid aid act cm now).1).code = 404) ∧
    (handle_approval_action s eid aid act cm now).2 = s := by
  have hstat : e.status ≠ "Submitted" := by
    rcases ht with h | h | h <;> rw [h] <;> decide
  have hnone : e.current_approver_id = none := by
    by_contra hcon
    exact hstat ((reachable_inv hs e (mem_of_lookupExpense he)).mp hcon)
  cases hb : aid.bind (get_current_user s.users) with
  | none =>
    simp only [handle_approval_action, hb]
    exact ⟨by norm_num, by norm_num⟩
  | some ap =>
    simp only [handle_approval_action, hb]
    by_cases hr : ap.role ∈ approverRoles
    · rw [if_neg (not_not_intro hr)]
      simp only [he]
      rw [if_pos (by rw [hnone]; simp)]
      exact ⟨by norm_num, by norm_num⟩
    · rw [if_pos hr]
      exact ⟨by norm_num, by norm_num⟩

/-- demoSubmitted after the manager rejects: a terminal Rejected claim. -/
def demoRejected : SysState :=
  stepSys demoSubmitted (Event.actionEv 1 (some 2) "reject" "") 1

/-- Witness for C6: on the rejected demo claim, a further approval
    attempt by the Director answers 403 and changes nothing. -/
theorem c6_terminal_claims_frozen_witness :
    Reachable demoRejected ∧
    ((((handle_approval_action demoRejected 1 (some 5) "approve" "" 7).1).code = 403 ∨
       ((handle_approval_action demoRejected 1 (some 5) "approve" "" 7).1).code = 404) ∧
      (handle_approval_action demoRejected 1 (some 5) "approve" "" 7).2 = demoRejected) :=
  ⟨Reachable.step demoSubmitted (Event.actionEv 1 (some 2) "reject" "") 1
      (Reachable.step demoState (Event.submitEv 100 "USD" "Travel" "Taxi" "2026-01-01") 0
        (Reachable.init demoState rfl)),
   c6_terminal_claims_frozen demoRejected
     (Reachable.step demoSubmitted (Event.actionEv 1 (some 2) "reject" "") 1
       (Reachable.step demoState (Event.submitEv 100 "USD" "Travel" "Taxi" "2026-01-01") 0
         (Reachable.init demoState rfl)))
     1 (some 5) "approve" "" 7
     ⟨1, 3, 100, "USD", "Travel", "Taxi", "2026-01-01", "Rejected", 1, none,
      [⟨ApproverTag.user 2, "Manager", "Reject", "", 1⟩]⟩
     (by decide) (Or.inr (Or.inl rfl))⟩

theorem handle_users (s : SysState) (eid : Nat) (aid : Option Nat) (act cm : String) (now : Nat) :
    ((handle_approval_action s eid aid act cm now).2).users = s.users := by
  unfold handle_approval_action
  repeat' (first | split | dsimp only)

/-- Claim C8, amended: after a successful recordAction call, an
    immediately repeated identical call by the same approver fails with an
    error and no mutation whenever the claim then carries a different (or
    cleared) current approver; this covers every terminal outcome and
    every advance to a step resolving to a different user.  It is not
    universal: when consecutive steps resolve to the same approver the
    repeat succeeds (see the counterexample). -/
theorem c8_double_action_amended (s : SysState) (eid : Nat) (aid : Option Nat)
    (act cm : String) (n1 n2 : Nat) (ap : User) (e2 : Expense)
    (hap : aid.bind (get_current_user s.users) = some ap)
    (h1 : ((handle_approval_action s eid aid act cm n1).1).code = 200)
    (he2 : lookupExpense ((handle_approval_action s eid aid act cm n1).2).expenses eid = some e2)
    (hmis : e2.current_approver_id ≠ some ap.id) :
    400 ≤ ((handle_approval_action ((handle_approval_action s eid aid act cm n1).2)
              eid aid act cm n2).1).code ∧
    (handle_approval_action ((handle_approval_action s eid aid act cm n1).2)
        eid aid act cm n2).2
      = (handle_approval_action s eid aid act cm n1).2 := by
  have hb1 : aid.bind (get_current_user ((handle_approval_action s eid aid act cm n1).2).users)
      = some ap := by
    rw [handle_users]
    exact hap
  generalize hgen : (handle_approval_action s eid aid act cm n1).2 = s1 at hb1 he2 ⊢
  simp only [handle_approval_action, hb1]
  by_cases hr : ap.role ∈ approverRoles
  · rw [if_neg (not_not_intro hr)]
    simp only [he2]
    rw [if_pos hmis]
    exact ⟨by norm_num, by norm_num⟩
  · rw [if_pos hr]
    exact ⟨by norm_num, by norm_num⟩

/-- Witness for C8 on the demo run: the manager approval succeeds and
    routes the claim to the Finance user, so the manager repeating the
    same call gets an error and changes nothing. -/
theorem c8_double_action_amended_witness :
    ((handle_approval_action demoSubmitted 1 (some 2) "approve" "" 1).1).code = 200 ∧
    (400 ≤ ((handle_approval_action ((handle_approval_action demoSubmitted 1 (some 2)
                "approve" "" 1).2) 1 (some 2) "approve" "" 2).1).code ∧
      (handle_approval_action ((handle_approval_action demoSubmitted 1 (some 2)
          "approve" "" 1).2) 1 (some 2) "approve" "" 2).2
        = (handle_approval_action demoSubmitted 1 (some 2) "approve" "" 1).2) :=
  ⟨by decide,
   c8_double_action_amended demoSubmitted 1 (some 2) "approve" "" 1 2
     ⟨2, 1, "manager@company.com", "Manager", some 1⟩
     ⟨1, 3, 100, "USD", "Travel", "Taxi", "2026-01-01", "Submitted", 2, some 4,
      [⟨ApproverTag.user 2, "Manager", "Approve", "", 1⟩]⟩
     rfl (by decide) (by decide) (by decide)⟩

/-- Directory whose flow repeats the Manager role in two consecutive
    steps, with no conditional rule configured. -/
def c8State : SysState :=
  { companies := [⟨1, "Default Company 1", "USD"⟩],
    users :=
      [⟨2, 1, "manager@company.com", "Manager", some 1⟩,
       ⟨3, 1, "employee@company.com", "Employee", some 2⟩],
    expenses := [],
    approval_rules := [(1, ⟨[⟨"Manager", false⟩, ⟨"Manager", false⟩], CondRule.empty⟩)],
    next_company_id := 2, next_user_id := 4, next_expense_id := 1 }

def c8Submitted : SysState :=
  stepSys c8State (Event.submitEv 10 "USD" "Misc" "Pens" "2026-01-02") 0

/-- Counterexample to C8 as stated: with two consecutive Manager steps,
    the manager approves (success, 200), the claim advances to the second
    step, which resolves to the same manager, and the immediately repeated
    identical call also succeeds (200) instead of failing. -/
theorem c8_same_role_repeat_cex :
    ((handle_approval_action c8Submitted 1 (some 2) "approve" "" 1).1).code = 200 ∧
    ((handle_approval_action
        ((handle_approval_action c8Submitted 1 (some 2) "approve" "" 1).2)
        1 (some 2) "approve" "" 2).1).code = 200 := by
  decide

/-- Claim C10: the action endpoint dispatches on the exact lowercase
    string reject.  Any other action string (approve, Reject, REJECT,
    arbitrary text) takes the approval path: the appended history record
    carries the capitalized raw action string as its decision, the
    conditional-rule evaluation runs over the updated history, and the
    workflow advances or terminates as for an approval (never to
    Rejected); when the evaluator fires, the claim is auto-approved with
    the synthetic record appended.  Exactly the string reject yields the
    Rejected terminal state. -/
theorem c10_action_string_dispatch (s : SysState) (hs : Reachable s) (eid : Nat)
    (aid : Option Nat) (act cm : String) (now : Nat) (ap : User) (e : Expense)
    (hap : aid.bind (get_current_user s.users) = some ap)
    (hrole : ap.role ∈ approverRoles)
    (he : lookupExpense s.expenses eid = some e)
    (hcur : e.current_approver_id = some ap.id) :
    ∃ e2, lookupExpense ((handle_approval_action s eid aid act cm now).2).expenses eid
        = some e2 ∧
      (∃ rest, e2.approvals_history
        = e.approvals_history
            ++ ⟨ApproverTag.user ap.id, ap.role, pyCapitalize act, cm, now⟩ :: rest) ∧
      (e2.status = "Rejected" ↔ act = "reject") ∧
      (act ≠ "reject" →
        (apply_conditional_rules s.approval_rules ap.company_id
            (e.approvals_history
              ++ [⟨ApproverTag.user ap.id, ap.role, pyCapitalize act, cm, now⟩])).1 = true →
        e2.status = "Approved" ∧
        e2.approvals_history
          = (e.approvals_history
              ++ [⟨ApproverTag.user ap.id, ap.role, pyCapitalize act, cm, now⟩])
            ++ [⟨ApproverTag.system, "Auto-Approval Engine", "Approved",
                 ((apply_conditional_rules s.approval_rules ap.company_id
                    (e.approvals_history
                      ++ [⟨ApproverTag.user ap.id, ap.role, pyCapitalize act, cm,
                           now⟩])).2).getD "", now⟩]) := by
  have hsub : e.status = "Submitted" :=
    (reachable_inv hs e (mem_of_lookupExpense he)).mp (by rw [hcur]; simp)
  simp only [handle_approval_action, hap]
  rw [if_neg (not_not_intro hrole)]
  simp only [he]
  rw [if_neg (not_not_intro hcur)]
  by_cases hrej : act = "reject"
  · have hb : (act == "reject") = true := beq_iff_eq.mpr hrej
    rw [if_pos hb]
    exact ⟨_, lookupExpense_update _ _ _ _ he rfl, ⟨[], rfl⟩, by simp [hrej],
      fun hn _ => absurd hrej hn⟩
  · have hb : (act == "reject") = false := beq_eq_false_iff_ne.mpr hrej
    rw [if_neg (by simp [hb])]
    cases hca : (apply_conditional_rules s.approval_rules ap.company_id
        (e.approvals_history
          ++ [⟨ApproverTag.user ap.id, ap.role, pyCapitalize act, cm, now⟩])).1 with
    | true =>
      rw [if_pos rfl]
      refine ⟨_, lookupExpense_update _ _ _ _ he rfl,
        ⟨[⟨ApproverTag.system, "Auto-Approval Engine", "Approved",
           ((apply_conditional_rules s.approval_rules ap.company_id
              (e.approvals_history
                ++ [⟨ApproverTag.user ap.id, ap.role, pyCapitalize act, cm, now⟩])).2).getD "",
           now⟩], by simp⟩,
        by simp [hrej], fun _ _ => ⟨rfl, by simp⟩⟩
    | false =>
      rw [if_neg (by simp)]
      cases hfl2 : lookupFlow s.approval_rules ap.company_id with
      | none =>
        simp only [hfl2]
        exact ⟨_, lookupExpense_update _ _ _ _ he rfl, ⟨[], rfl⟩, by simp [hsub, hrej],
          fun _ h2 => absurd h2 (by simp [hca])⟩
      | some fl =>
        simp only [hfl2]
        split
        · split
          · exact ⟨_, lookupExpense_update _ _ _ _ he rfl, ⟨[], rfl⟩, by simp [hsub, hrej],
              fun _ h2 => absurd h2 (by simp [hca])⟩
          · split
            · exact ⟨_, lookupExpense_update _ _ _ _ he rfl, ⟨[], rfl⟩, by simp [hsub, hrej],
                fun _ h2 => absurd h2 (by simp [hca])⟩
            · exact ⟨_, lookupExpense_update _ _ _ _ he rfl, ⟨[], rfl⟩, by simp [hsub, hrej],
                fun _ h2 => absurd h2 (by simp [hca])⟩
        · exact ⟨_, lookupExpense_update _ _ _ _ he rfl, ⟨[], rfl⟩, by simp [hsub, hrej],
            fun _ h2 => absurd h2 (by simp [hca])⟩

/-- Witness for C10: the capitalized action string Reject does not reject;
    on the pending demo claim it takes the approval path, recording the
    decision string Reject. -/
theorem c10_action_string_dispatch_witness :
    Reachable demoSubmitted ∧
    (∃ e2, lookupExpense
        ((handle_approval_action demoSubmitted 1 (some 2) "Reject" "" 1).2).expenses 1
        = some e2 ∧
      (∃ rest, e2.approvals_history
        = ([] : List ApprovalRecord)
            ++ ⟨ApproverTag.user 2, "Manager", pyCapitalize "Reject", "", 1⟩ :: rest) ∧
      (e2.status = "Rejected" ↔ ("Reject" : String) = "reject") ∧
      (("Reject" : String) ≠ "reject" →
        (apply_conditional_rules demoSubmitted.approval_rules 1
            (([] : List ApprovalRecord)
              ++ [⟨ApproverTag.user 2, "Manager", pyCapitalize "Reject", "", 1⟩])).1 = true →
        e2.status = "Approved" ∧
        e2.approvals_history
          = (([] : List ApprovalRecord)
              ++ [⟨ApproverTag.user 2, "Manager", pyCapitalize "Reject", "", 1⟩])
            ++ [⟨ApproverTag.system, "Auto-Approval Engine", "Approved",
                 ((apply_conditional_rules demoSubmitted.approval_rules 1
                    (([] : List ApprovalRecord)
                      ++ [⟨ApproverTag.user 2, "Manager", pyCapitalize "Reject", "",
                           1⟩])).2).getD "", 1⟩])) :=
  ⟨Reachable.step demoState (Event.submitEv 100 "USD" "Travel" "Taxi" "2026-01-01") 0
      (Reachable.init demoState rfl),
   c10_action_string_dispatch demoSubmitted
     (Reachable.step demoState (Event.submitEv 100 "USD" "Travel" "Taxi" "2026-01-01") 0
       (Reachable.init demoState rfl))
     1 (some 2) "Reject" "" 1
     ⟨2, 1, "manager@company.com", "Manager", some 1⟩
     ⟨1, 3, 100, "USD", "Travel", "Taxi", "2026-01-01", "Submitted", 1, some 2, []⟩
     rfl (by decide) (by decide) rfl⟩
/-- An expense with its money fields (amount, currency) blanked; two
    expenses agree on everything the decision logic reads exactly when
    their erasures are equal. -/
def eraseMoneyE (e : Expense) : Expense := { e with amount := 0, currency := "" }

/-- A system state with every stored amount and currency blanked. -/
def eraseMoney (s : SysState) : SysState := { s with expenses := s.expenses.map eraseMoneyE }

theorem lookupExpense_eraseMoney (es : List Expense) (eid : Nat) :
    lookupExpense (es.map eraseMoneyE) eid = (lookupExpense es eid).map eraseMoneyE := by
  unfold lookupExpense
  induction es with
  | nil => rfl
  | cons x xs ih =>
    have hsame : ((eraseMoneyE x).id == eid) = (x.id == eid) := rfl
    rw [List.map_cons, List.find?_cons, List.find?_cons, hsame]
    cases (x.id == eid) with
    | true => rfl
    | false => exact ih

theorem updateExpense_eraseMoney (es : List Expense) (e2 : Expense) :
    updateExpense (es.map eraseMoneyE) (eraseMoneyE e2)
      = (updateExpense es e2).map eraseMoneyE := by
  unfold updateExpense
  rw [List.map_map, List.map_map]
  congr 1
  funext x
  simp only [Function.comp_apply]
  have hsame : ((eraseMoneyE x).id == (eraseMoneyE e2).id) = (x.id == e2.id) := rfl
  rw [hsame]
  by_cases hx : (x.id == e2.id) = true
  · rw [if_pos hx, if_pos hx]
  · rw [if_neg hx, if_neg hx]

theorem handle_eraseMoney (s : SysState) (eid : Nat) (aid : Option Nat) (act cm : String)
    (now : Nat) :
    (handle_approval_action (eraseMoney s) eid aid act cm now).1
        = (handle_approval_action s eid aid act cm now).1 ∧
    (handle_approval_action (eraseMoney s) eid aid act cm now).2
        = eraseMoney ((handle_approval_action s eid aid act cm now).2) := by
  unfold handle_approval_action
  dsimp only [eraseMoney]
  rw [lookupExpense_eraseMoney]
  cases hb : aid.bind (get_current_user s.users) with
  | none => exact ⟨rfl, rfl⟩
  | some ap =>
    dsimp only
    by_cases hr : ap.role ∈ approverRoles
    · rw [if_neg (not_not_intro hr), if_neg (not_not_intro hr)]
      cases he : lookupExpense s.expenses eid with
      | none => exact ⟨rfl, rfl⟩
      | some e =>
        simp only [Option.map_some']
        dsimp only [eraseMoneyE]
        by_cases hmis : e.current_approver_id ≠ some ap.id
        · rw [if_pos hmis, if_pos hmis]
          exact ⟨rfl, rfl⟩
        · rw [if_neg hmis, if_neg hmis]
          cases hbact : (act == "reject") with
          | true =>
            rw [if_pos (Eq.refl true), if_pos (Eq.refl true)]
            refine ⟨rfl, ?_⟩
            dsimp only [eraseMoney]
            congr 1
            exact updateExpense_eraseMoney s.expenses
              { e with status := "Rejected", current_approver_id := none,
                       approvals_history := e.approvals_history
                         ++ [⟨ApproverTag.user ap.id, ap.role, pyCapitalize act, cm, now⟩] }
          | false =>
            rw [if_neg Bool.false_ne_true, if_neg Bool.false_ne_true]
            cases hca : (apply_conditional_rules s.approval_rules ap.company_id
                (e.approvals_history
                  ++ [⟨ApproverTag.user ap.id, ap.role, pyCapitalize act, cm, now⟩])).1 with
            | true =>
              rw [if_pos (Eq.refl true), if_pos (Eq.refl true)]
              refine ⟨rfl, ?_⟩
              dsimp only [eraseMoney]
              congr 1
              exact updateExpense_eraseMoney s.expenses
                { e with status := "Approved", current_approver_id := none,
                         approvals_history := (e.approvals_history
                             ++ [⟨ApproverTag.user ap.id, ap.role, pyCapitalize act, cm, now⟩])
                           ++ [⟨ApproverTag.system, "Auto-Approval Engine", "Approved",
                                ((apply_conditional_rules s.approval_rules ap.company_id
                                   (e.approvals_history
                                     ++ [⟨ApproverTag.user ap.id, ap.role, pyCapitalize act,
                                          cm, now⟩])).2).getD "", now⟩] }
            | false =>
              rw [if_neg Bool.false_ne_true, if_neg Bool.false_ne_true]
              cases hfl : lookupFlow s.approval_rules ap.company_id with
              | none =>
                refine ⟨rfl, ?_⟩
                dsimp only [eraseMoney]
                congr 1
                exact updateExpense_eraseMoney s.expenses
                  { e with approvals_history := e.approvals_history
                      ++ [⟨ApproverTag.user ap.id, ap.role, pyCapitalize act, cm, now⟩] }
              | some fl =>
                dsimp only
                by_cases hidx : e.current_step - 1 + 1 < fl.steps.length
                · rw [if_pos hidx, if_pos hidx]
                  cases hst : fl.steps[e.current_step + 1 - 1]? with
                  | none =>
                    refine ⟨rfl, ?_⟩
                    dsimp only [eraseMoney]
                    congr 1
                    exact updateExpense_eraseMoney s.expenses
                      { e with current_step := e.current_step + 1,
                               approvals_history := e.approvals_history
                                 ++ [⟨ApproverTag.user ap.id, ap.role, pyCapitalize act, cm,
                                      now⟩] }
                  | some st =>
                    dsimp only
                    cases hfind : find_user_by_role s.users ap.company_id st.role with
                    | none =>
                      refine ⟨rfl, ?_⟩
                      dsimp only [eraseMoney]
                      congr 1
                      exact updateExpense_eraseMoney s.expenses
                        { e with current_step := e.current_step + 1,
                                 status := "Approval Halted", current_approver_id := none,
                                 approvals_history := e.approvals_history
                                   ++ [⟨ApproverTag.user ap.id, ap.role, pyCapitalize act, cm,
                                        now⟩] }
                    | some nu =>
                      refine ⟨rfl, ?_⟩
                      dsimp only [eraseMoney]
                      congr 1
                      exact updateExpense_eraseMoney s.expenses
                        { e with current_step := e.current_step + 1,
                                 current_approver_id := some nu.id,
                                 approvals_history := e.approvals_history
                                   ++ [⟨ApproverTag.user ap.id, ap.role, pyCapitalize act, cm,
                                        now⟩] }
                · rw [if_neg hidx, if_neg hidx]
                  refine ⟨rfl, ?_⟩
                  dsimp only [eraseMoney]
                  congr 1
                  exact updateExpense_eraseMoney s.expenses
                    { e with status := "Approved", current_approver_id := none,
                             approvals_history := e.approvals_history
                               ++ [⟨ApproverTag.user ap.id, ap.role, pyCapitalize act, cm,
                                    now⟩] }
    · rw [if_pos hr, if_pos hr]
      exact ⟨rfl, rfl⟩

/-- Claim C9: currency conversion never influences decision logic.  Two
    states whose money erasures agree (identical except for stored amounts
    and currencies) produce, for any recordAction request, the identical
    response (status code and message, hence the same outcome and
    evaluator reason) and post-states that again agree except for the
    stored money fields, which the call copies unchanged.  The evaluator
    signature consumes only the rule store and history records, which
    carry no amounts, and mock_currency_conversion appears only in
    view_pending_expenses, which renders listings and never writes
    state. -/
theorem c9_currency_noninterference (s1 s2 : SysState) (eid : Nat) (aid : Option Nat)
    (act cm : String) (now : Nat)
    (h : eraseMoney s1 = eraseMoney s2) :
    (handle_approval_action s1 eid aid act cm now).1
        = (handle_approval_action s2 eid aid act cm now).1 ∧
    eraseMoney ((handle_approval_action s1 eid aid act cm now).2)
        = eraseMoney ((handle_approval_action s2 eid aid act cm now).2) := by
  have h1 := handle_eraseMoney s1 eid aid act cm now
  have h2 := handle_eraseMoney s2 eid aid act cm now
  rw [h] at h1
  constructor
  · rw [← h1.1, ← h2.1]
  · rw [← h1.2, ← h2.2]

/-- demoState submitted with a different amount and currency. -/
def demoSubmittedEUR : SysState :=
  stepSys demoState (Event.submitEv 999 "EUR" "Travel" "Taxi" "2026-01-01") 0

/-- Witness for C9: the same pending demo claim submitted as 100 USD or
    as 999 EUR yields the identical approval response and money-erased
    post-state. -/
theorem c9_currency_noninterference_witness :
    eraseMoney demoSubmitted = eraseMoney demoSubmittedEUR ∧
    ((handle_approval_action demoSubmitted 1 (some 2) "approve" "" 1).1
        = (handle_approval_action demoSubmittedEUR 1 (some 2) "approve" "" 1).1 ∧
      eraseMoney ((handle_approval_action demoSubmitted 1 (some 2) "approve" "" 1).2)
        = eraseMoney ((handle_approval_action demoSubmittedEUR 1 (some 2) "approve" "" 1).2)) :=
  ⟨by decide,
   c9_currency_noninterference demoSubmitted demoSubmittedEUR 1 (some 2) "approve" "" 1
     (by decide)⟩

end Hell
